import Mathlib

/-!
Verification of the R-Car CSI-2 receiver driver core
(`drivers/media/platform/rcar-vin/rcar-csi2.c`).

The definitions below are a shallow embedding of the driver's speed-table
lookups, link-speed computation, PHY bring-up/teardown control flow, stream
reference counting and interrupt-driven fault recovery.  C arrays terminated
by an all-zero sentinel are modelled as Lean lists; where the sentinel itself
takes part in the computation (the `rcsi2_phtw_write_mbps` tie comparison,
the `rcsi2_phtw_write_array` stop condition) it is modelled explicitly.
Machine arithmetic is `Nat` with explicit wrap-around where C unsigned
overflow can occur.
-/

deriving instance DecidableEq for Except

namespace RcarCsi2

/-- One entry of a speed table (`struct rcsi2_mbps_reg`): a threshold in Mbps
and the register value used for speeds near that threshold.  The terminating
all-zero sentinel of the C arrays is not part of the list. -/
structure MbpsReg where
  mbps : Nat
  reg  : Nat
deriving DecidableEq, Repr

/-- Absolute distance between two naturals. -/
def dist (a b : Nat) : Nat := if a ≤ b then b - a else a - b

/-- Wrap-around u32 subtraction `a - b`, as computed by C unsigned arithmetic. -/
def u32sub (a b : Nat) : Nat := (a % 2 ^ 32 + (2 ^ 32 - b % 2 ^ 32)) % 2 ^ 32

/-- The scan-and-choose loop shared verbatim by `rcsi2_set_phypll` and
`rcsi2_get_osc_freq`: walk the ascending table until the first entry whose
threshold is at least the target, remembering the previous entry
(`hsfreq_prev` / `osc_freq_prev`).  Reaching the sentinel (`[]`) is the
`-ERANGE` failure.  On a match, take the previous entry when
`(mbps - prev->mbps) <= (hsfreq->mbps - mbps)`; inside this branch
`prev.mbps < x ≤ e.mbps`, so the C unsigned subtractions are exact and
`Nat` subtraction coincides with them. -/
def mbpsLookupGo (x : Nat) : List MbpsReg → Option MbpsReg → Except Unit Nat
  | [], _ => .error ()
  | e :: rest, prev =>
    if x ≤ e.mbps then
      match prev with
      | some p => if x - p.mbps ≤ e.mbps - x then .ok p.reg else .ok e.reg
      | none => .ok e.reg
    else mbpsLookupGo x rest (some e)

/-- Low-speed warning check of `rcsi2_set_phypll` / `rcsi2_get_osc_freq`:
`mbps < table[0].mbps` (an empty table would expose the sentinel, whose
threshold is 0, and never warn). -/
def mbpsLowWarn (table : List MbpsReg) (x : Nat) : Bool :=
  match table with
  | [] => false
  | e :: _ => decide (x < e.mbps)

/-- `rcsi2_set_phypll`: warn when the target is below the first threshold,
scan for the nearest entry (ties to the previous/lower entry) and on success
write its register value into PHYPLL.  The first component records whether
the low-speed warning was emitted; `.error ()` is the `-ERANGE` return and
`.ok r` the value programmed into the HSFREQRANGE field. -/
def rcsi2_set_phypll (table : List MbpsReg) (x : Nat) : Bool × Except Unit Nat :=
  (mbpsLowWarn table x, mbpsLookupGo x table none)

/-- `rcsi2_get_osc_freq`: textually the same scan as `rcsi2_set_phypll` over
the oscillator-target table.  `.error ()` models the `return -ERANGE`
path (truncated by the function's `u16` return type in C); `.ok r` is the
returned register value. -/
def rcsi2_get_osc_freq (table : List MbpsReg) (x : Nat) : Bool × Except Unit Nat :=
  (mbpsLowWarn table x, mbpsLookupGo x table none)

/-- The final `value` pointer of the `rcsi2_phtw_write_mbps` loop.  Unlike
`rcsi2_set_phypll`, the previous/current tie comparison is performed BEFORE
the sentinel check, so when the scan runs off the end of the table the
comparison is made against the sentinel entry (threshold 0) with u32
wrap-around arithmetic. -/
def phtwMbpsGo (x : Nat) : List MbpsReg → Option MbpsReg → MbpsReg
  | [], prev =>
    match prev with
    | some p => if u32sub x p.mbps ≤ u32sub 0 x then p else ⟨0, 0⟩
    | none => ⟨0, 0⟩
  | e :: rest, prev =>
    if x ≤ e.mbps then
      match prev with
      | some p => if u32sub x p.mbps ≤ u32sub e.mbps x then p else e
      | none => e
    else phtwMbpsGo x rest (some e)

/-- `rcsi2_phtw_write_mbps`: scan, tie-adjust, and only then test the
sentinel; on success the selected register value is written through the
test interface (`rcsi2_phtw_write(value->reg, code)`), on the sentinel the
function returns `-ERANGE`.  No low-speed warning exists in this function. -/
def rcsi2_phtw_write_mbps (table : List MbpsReg) (x : Nat) : Except Unit Nat :=
  let value := phtwMbpsGo x table none
  if value.mbps = 0 then .error () else .ok value.reg

/-- The speed table of the claim example: thresholds 90/100/110 with register
values 0x10/0x20/0x30 (these are rows of `hsfreqrange_v3u`). -/
def exampleTable : List MbpsReg := [⟨90, 0x10⟩, ⟨100, 0x20⟩, ⟨110, 0x30⟩]

/-- Narrowing of a u64 value to the C `int` return type of
`rcsi2_calc_mbps` (two's-complement wrap of the low 32 bits). -/
def u64_to_int (n : Nat) : Int :=
  if n % 2 ^ 32 < 2 ^ 31 then ((n % 2 ^ 32 : Nat) : Int)
  else ((n % 2 ^ 32 : Nat) : Int) - 2 ^ 32

/-- `rcsi2_calc_mbps`: the u64 product of the remote pixel rate and
bits-per-pixel, divided (`do_div`, floor) by `lanes * 1000000`, the u64
quotient then narrowed to the function's `int` return type.  A missing
remote subdevice is `-ENODEV`, a missing pixel-rate control is `-EINVAL`;
the x5h variant skips both checks and divides the constant 7423000000.
A negative narrowed result is returned as the error value, folding in the
callers' `if (mbps < 0) return mbps` check. -/
def rcsi2_calc_mbps (x5h remote : Bool) (ctrl : Option Nat) (bpp lanes : Nat) :
    Except Int Nat :=
  if x5h then
    let r := u64_to_int (7423000000 % 2 ^ 64 / (lanes * 1000000))
    if r < 0 then .error r else .ok r.toNat
  else if remote = false then .error (-19)
  else
    match ctrl with
    | none => .error (-22)
    | some pixelRate =>
      let r := u64_to_int (pixelRate * bpp % 2 ^ 64 / (lanes * 1000000))
      if r < 0 then .error r else .ok r.toNat

/-- Divisor applied to the v4h link rate for C-PHY connections.  The source
writes `do_div(data_rate, 2.8)`, but the `do_div` macro assigns its divisor
to a `uint32_t`, so the floating constant 2.8 is truncated to 2 before the
division is performed. -/
def v4h_cphy_divisor : Nat := 2

/-- One row of `cphy_setting_table_r8a779g0` (`struct rcsi2_cphy_setting`). -/
structure CphySetting where
  msps : Nat
  rw_hs_rx_2 : Nat
  rw_trio_0 : Nat
  rw_trio_1 : Nat
  rw_trio_2 : Nat
  afe_lane0_29 : Nat
  afe_lane0_27 : Nat
deriving DecidableEq, Repr

/-- `cphy_setting_table_r8a779g0`, without the all-zero sentinel. -/
def cphy_setting_table_r8a779g0 : List CphySetting := [
  ⟨80, 0x0038, 0x0200, 0x0134, 0x006a, 0x0000, 0x0000⟩,
  ⟨100, 0x0038, 0x0200, 0x00f5, 0x0055, 0x0000, 0x0000⟩,
  ⟨200, 0x0038, 0x0200, 0x0077, 0x002b, 0x0000, 0x0000⟩,
  ⟨300, 0x0038, 0x0200, 0x004d, 0x001d, 0x0000, 0x0000⟩,
  ⟨400, 0x0038, 0x0200, 0x0038, 0x0016, 0x0000, 0x0000⟩,
  ⟨500, 0x0038, 0x0200, 0x002c, 0x0012, 0x0000, 0x0000⟩,
  ⟨600, 0x0038, 0x0200, 0x0023, 0x000f, 0x0000, 0x0000⟩,
  ⟨700, 0x0038, 0x0200, 0x001d, 0x000d, 0x0000, 0x0000⟩,
  ⟨800, 0x0038, 0x0200, 0x0019, 0x000c, 0x0000, 0x0000⟩,
  ⟨900, 0x0038, 0x0200, 0x0015, 0x000b, 0x0000, 0x0000⟩,
  ⟨1000, 0x003e, 0x0200, 0x0013, 0x000a, 0x0000, 0x0400⟩,
  ⟨1100, 0x0044, 0x0200, 0x0010, 0x0009, 0x0000, 0x0800⟩,
  ⟨1200, 0x004a, 0x0200, 0x000e, 0x0008, 0x0000, 0x0c00⟩,
  ⟨1300, 0x0051, 0x0200, 0x000d, 0x0008, 0x0000, 0x0c00⟩,
  ⟨1400, 0x0057, 0x0200, 0x000b, 0x0007, 0x0000, 0x1000⟩,
  ⟨1500, 0x005d, 0x0400, 0x000a, 0x0007, 0x0000, 0x1000⟩,
  ⟨1600, 0x0063, 0x0400, 0x0009, 0x0007, 0x0000, 0x1400⟩,
  ⟨1700, 0x006a, 0x0400, 0x0008, 0x0006, 0x0000, 0x1400⟩,
  ⟨1800, 0x0070, 0x0400, 0x0007, 0x0006, 0x0000, 0x1400⟩,
  ⟨1900, 0x0076, 0x0400, 0x0007, 0x0006, 0x0000, 0x1400⟩,
  ⟨2000, 0x007c, 0x0400, 0x0006, 0x0006, 0x0000, 0x1800⟩,
  ⟨2100, 0x0083, 0x0400, 0x0005, 0x0005, 0x0000, 0x1800⟩,
  ⟨2200, 0x0089, 0x0600, 0x0005, 0x0005, 0x0000, 0x1800⟩,
  ⟨2300, 0x008f, 0x0600, 0x0004, 0x0005, 0x0000, 0x1800⟩,
  ⟨2400, 0x0095, 0x0600, 0x0004, 0x0005, 0x0000, 0x1800⟩,
  ⟨2500, 0x009c, 0x0600, 0x0004, 0x0005, 0x0000, 0x1c00⟩,
  ⟨2600, 0x00a2, 0x0600, 0x0003, 0x0005, 0x0010, 0x1c00⟩,
  ⟨2700, 0x00a8, 0x0600, 0x0003, 0x0005, 0x0010, 0x1c00⟩,
  ⟨2800, 0x00ae, 0x0600, 0x0002, 0x0004, 0x0010, 0x1c00⟩,
  ⟨2900, 0x00b5, 0x0800, 0x0002, 0x0004, 0x0010, 0x1c00⟩,
  ⟨3000, 0x00bb, 0x0800, 0x0002, 0x0004, 0x0010, 0x1c00⟩,
  ⟨3100, 0x00c1, 0x0800, 0x0002, 0x0004, 0x0010, 0x1c00⟩,
  ⟨3200, 0x00c7, 0x0800, 0x0001, 0x0004, 0x0010, 0x1c00⟩,
  ⟨3300, 0x00ce, 0x0800, 0x0001, 0x0004, 0x0010, 0x1c00⟩,
  ⟨3400, 0x00d4, 0x0800, 0x0001, 0x0004, 0x0010, 0x1c00⟩,
  ⟨3500, 0x00da, 0x0800, 0x0001, 0x0004, 0x0010, 0x1c00⟩]

/-- The scan at the head of `rcsi2_c_phy_setting`: the first entry whose
`msps` is strictly greater than the data rate; `none` is the sentinel,
reported as `-ERANGE`. -/
def findMsps (x : Nat) : List CphySetting → Option CphySetting
  | [] => none
  | e :: rest => if x < e.msps then some e else findMsps x rest

/-- `ST_PHY_READY` is bit 31 of the `ST_PHYST` status register. -/
def ST_PHY_READY : Nat := 2 ^ 31

/-- The calibration-ready poll of `rcsi2_c_phy_setting` (step T5): up to
`fuel` reads of `ST_PHYST` starting at read index `i`, succeeding as soon as
one read has `ST_PHY_READY` set.  The driver polls with `fuel = 10`,
sleeping 1-2 ms between reads. -/
def phyReadyWithin (reads : Nat → Nat) : Nat → Nat → Bool
  | _, 0 => false
  | i, fuel + 1 =>
    if reads i &&& ST_PHY_READY ≠ 0 then true else phyReadyWithin reads (i + 1) fuel

/-- `rcsi2_c_phy_setting`, abstracted over the hardware status reads: select
the timing row for the symbol rate (sentinel is `-ERANGE`), program the
C-PHY registers (register writes elided: they do not affect the result),
release shutdown/reset and poll for calibration readiness; a poll that never
observes `ST_PHY_READY` within 10 reads returns `-ETIMEDOUT`. -/
def rcsi2_c_phy_setting (table : List CphySetting) (data_rate : Nat)
    (reads : Nat → Nat) : Except Int Unit :=
  match findMsps data_rate table with
  | none => .error (-34)
  | some _ => if phyReadyWithin reads 0 10 then .ok () else .error (-110)

/-- Observable actions of the driver, used to express ordering and counting
properties of traces. -/
inductive Act where
  | writeReg (reg val : Nat)
  | enterStandby
  | exitStandby
  | sourceSetStreaming (enabled : Bool)
  | waitPhy
  | frxmDeassert
  | lock
  | unlock
  | sleep
  | logInfo
  | logWarn
  | logErr
deriving DecidableEq, Repr

/-- `rcsi2_start_receiver_v4h`, abstracted to its observable outcome: compute
the link rate, divide it by `v4h_cphy_divisor` for C-PHY connections, run the
C-PHY (or D-PHY, supplied as `dphyRes`) setting step — and, when that step
fails, log the failure (`dev_err`) and fall through to `return 0`: the
function reports success regardless of the PHY-setting result.  Direct
register programming (steps T0-T3) is elided; it does not affect the result. -/
def rcsi2_start_receiver_v4h (cphy remote : Bool) (ctrl : Option Nat) (bpp lanes : Nat)
    (table : List CphySetting) (reads : Nat → Nat) (dphyRes : Except Int Unit) :
    Except Int Unit × List Act :=
  match rcsi2_calc_mbps false remote ctrl bpp lanes with
  | .error e => (.error e, [])
  | .ok mbps =>
    let data_rate := if cphy then mbps / v4h_cphy_divisor else mbps
    match (if cphy then rcsi2_c_phy_setting table data_rate reads else dphyRes) with
    | .error _ => (.ok (), [.logErr])
    | .ok _ => (.ok (), [])

/-- `rcsi2_enter_standby` followed by stopping the camera-side source: this
is the body of `rcsi2_stop`, in the order the source executes it — standby
entry (PHY teardown: PHYCNT cleared, test-interface clear, reset assertion)
FIRST, the source stop request (`s_stream(0)` / `csi2cam_stop`) second. -/
def rcsi2_stop : List Act := [.enterStandby, .sourceSetStreaming false]

/-- `rcsi2_start`: leave standby, run the per-generation receiver bring-up
(result `recvRes`, trace `recvTrace`), and on bring-up failure re-enter
standby and propagate the error.  On success start the camera-side source;
a source failure also re-enters standby and propagates.  Otherwise, for the
v4h/v4m generations, wait (result discarded) for the lane stop states and
de-assert the force-RX-mode bits. -/
def rcsi2_start (recvRes : Except Int Unit) (recvTrace : List Act)
    (srcRes : Except Int Unit) (v4hLike : Bool) : Except Int Unit × List Act :=
  match recvRes with
  | .error e => (.error e, .exitStandby :: (recvTrace ++ [.enterStandby]))
  | .ok _ =>
    match srcRes with
    | .error e =>
      (.error e, .exitStandby :: (recvTrace ++ [.sourceSetStreaming true, .enterStandby]))
    | .ok _ =>
      (.ok (), .exitStandby :: (recvTrace ++ [.sourceSetStreaming true] ++
        (if v4hLike then [.waitPhy, .frxmDeassert] else [])))

/-- `rcsi2_s_stream`, under the controller mutex: with no bound remote (and
not the x5h variant) fail with `-ENODEV`; a first `start` (count 0) runs
`rcsi2_start` and on failure leaves the count untouched; a last `stop`
(count 1) runs `rcsi2_stop`; in every non-failing path the count is then
incremented or decremented unconditionally.  The third component is the
emitted hardware trace. -/
def rcsi2_s_stream (x5h remote : Bool) (start : Except Int Unit × List Act)
    (enable : Bool) (c : Int) : Except Int Unit × Int × List Act :=
  if x5h = false ∧ remote = false then (.error (-19), c, [])
  else if enable = true ∧ c = 0 then
    match start with
    | (.error e, tr) => (.error e, c, tr)
    | (.ok _, tr) => (.ok (), c + 1, tr)
  else if enable = false ∧ c = 1 then (.ok (), c - 1, rcsi2_stop)
  else (.ok (), c + (if enable then 1 else -1), [])

/-- `N` consecutive `start` requests (`s_stream(1)`) beginning at count `c`,
with a bound remote: the final count together with the total number of
hardware bring-up attempts (counted as `exitStandby` actions) across all
emitted traces. -/
def runStarts (start : Except Int Unit × List Act) : Nat → Int → Int × Nat
  | 0, c => (c, 0)
  | n + 1, c =>
    let r := rcsi2_s_stream false true start true c
    let rest := runStarts start n r.2.1
    (rest.1, r.2.2.count .exitStandby + rest.2)

/-- `INTSTATE` register offset. -/
def INTSTATE_REG : Nat := 0x38

/-- `INTERRSTATE` register offset. -/
def INTERRSTATE_REG : Nat := 0x3c

/-- Return value of the immediate interrupt stage. -/
inductive IrqRet where
  | handled
  | wakeThread
deriving DecidableEq, Repr

/-- `rcsi2_irq`, the immediate (non-blocking) interrupt stage: read status
and error status; a zero status is acknowledged with no register write; a
non-zero status is written back (acknowledged), and only when the error
status is also non-zero is it cleared, the fault logged, and the deferred
stage woken. -/
def rcsi2_irq (status errStatus : Nat) : IrqRet × List Act :=
  if status = 0 then (.handled, [])
  else if errStatus = 0 then (.handled, [.writeReg INTSTATE_REG status])
  else
    (.wakeThread,
      [.writeReg INTSTATE_REG status, .writeReg INTERRSTATE_REG errStatus, .logInfo])

/-- `rcsi2_irq_thread`, the deferred (blocking) interrupt stage: under the
controller lock, one `rcsi2_stop`, a settle sleep, one `rcsi2_start`; a
restart failure is logged (`dev_warn`) and not retried. -/
def rcsi2_irq_thread (recvRes : Except Int Unit) (recvTrace : List Act)
    (srcRes : Except Int Unit) (v4hLike : Bool) : List Act :=
  [.lock] ++ rcsi2_stop ++ [.sleep] ++ (rcsi2_start recvRes recvTrace srcRes v4hLike).2 ++
    (match (rcsi2_start recvRes recvTrace srcRes v4hLike).1 with
     | .error _ => [.logWarn]
     | .ok _ => []) ++ [.unlock]

/-- Receiver power state as observed through standby transitions. -/
inductive RState where
  | standby
  | active
deriving DecidableEq, Repr

/-- One action's effect on the receiver state: only standby entry/exit
change it. -/
def stepState (s : RState) : Act → RState
  | .enterStandby => .standby
  | .exitStandby => .active
  | _ => s

/-- Receiver state after executing a trace. -/
def stateAfter (s : RState) (tr : List Act) : RState := tr.foldl stepState s

/-- Endpoint bus type (`V4L2_MBUS_CSI2_DPHY` / `V4L2_MBUS_CSI2_CPHY` /
anything else). -/
inductive BusType where
  | dphy
  | cphy
  | other
deriving DecidableEq, Repr

/-- The lane configuration produced by `rcsi2_parse_v4l2`. -/
structure LaneConfig where
  lanes : Nat
  cphy_connection : Bool
  lane_swap : List Nat
deriving DecidableEq, Repr

/-- The `lane_swap` array computed by `rcsi2_parse_v4l2`:
`data_lanes[i]` for the first `lanes` positions, the identity index for the
rest. -/
def rcsi2_lane_swap (lanes : Nat) (data_lanes : List Nat) : List Nat :=
  (List.range 4).map fun i => if i < lanes then data_lanes.getD i 0 else i

/-- The per-entry validation loop of `rcsi2_parse_v4l2`: every computed
`lane_swap` entry must lie in the physical range 1..4, otherwise `-EINVAL`.
No duplicate check is performed. -/
def rcsi2_check_lanes (lanes : Nat) (cphy : Bool) (data_lanes : List Nat) :
    Except Int LaneConfig :=
  let swap := rcsi2_lane_swap lanes data_lanes
  if ∀ v ∈ swap, 1 ≤ v ∧ v ≤ 4 then .ok ⟨lanes, cphy, swap⟩ else .error (-22)

/-- `rcsi2_parse_v4l2`: only port 0 endpoint 0 is connected (`-ENOTCONN`);
the bus must be D-PHY (1, 2 or 4 data lanes) or C-PHY (exactly 3); then the
lane-swap mapping is computed and range-checked. -/
def rcsi2_parse_v4l2 (port id : Nat) (bus : BusType) (num_data_lanes : Nat)
    (data_lanes : List Nat) : Except Int LaneConfig :=
  if port ≠ 0 ∨ id ≠ 0 then .error (-107)
  else
    match bus with
    | .other => .error (-22)
    | .dphy =>
      if num_data_lanes ≠ 1 ∧ num_data_lanes ≠ 2 ∧ num_data_lanes ≠ 4 then .error (-22)
      else rcsi2_check_lanes num_data_lanes false data_lanes
    | .cphy =>
      if num_data_lanes ≠ 3 then .error (-22)
      else rcsi2_check_lanes num_data_lanes true data_lanes

/-- One `struct phtw_value` pair written through the PHY test interface. -/
structure PhtwValue where
  data : Nat
  code : Nat
deriving DecidableEq, Repr

/-- `rcsi2_phtw_write_array`, abstracted over the single-pair writer `w`
(whose argument is the index of the attempt, so that timeouts at any point
can be modelled): iterate while `value->data || value->code`, i.e. stop at
the first all-zero entry without writing it; abort on the first failed
write.  The second component counts the write attempts performed. -/
def rcsi2_phtw_write_array (w : Nat → Except Int Unit) :
    List PhtwValue → Nat → Except Int Unit × Nat
  | [], n => (.ok (), n)
  | v :: rest, n =>
    if v.data = 0 ∧ v.code = 0 then (.ok (), n)
    else
      match w n with
      | .error e => (.error e, n + 1)
      | .ok _ => rcsi2_phtw_write_array w rest (n + 1)

/-- `step5` of `rcsi2_d_phy_setting` (V4M/V4H D-PHY), including its
terminating sentinel: the FIRST entry is already the all-zero pair. -/
def step5 : List PhtwValue := [⟨0x00, 0x00⟩, ⟨0x00, 0x1E⟩, ⟨0, 0⟩]

/-- `step33` of `rcsi2_init_phtw_v4m`, including its terminating sentinel:
the FIRST entry is already the all-zero pair. -/
def step33 : List PhtwValue := [⟨0x00, 0x00⟩, ⟨0x3C, 0x08⟩, ⟨0, 0⟩]

end RcarCsi2

namespace RcarCsi2

theorem mbpsLookupGo_min (x : Nat) (l : List MbpsReg) :
    ∀ p : MbpsReg,
      l.Pairwise (fun a b => a.mbps < b.mbps) →
      (∀ e ∈ l, p.mbps < e.mbps) →
      p.mbps < x →
      (∃ e ∈ l, x ≤ e.mbps) →
      ∃ e ∈ p :: l,
        mbpsLookupGo x l (some p) = .ok e.reg ∧
        (∀ f ∈ p :: l, dist e.mbps x ≤ dist f.mbps x) ∧
        (∀ f ∈ p :: l, dist f.mbps x = dist e.mbps x → e.mbps ≤ f.mbps) := by
  induction l with
  | nil =>
    intro p _ _ _ hex
    simp at hex
  | cons c rest ih =>
    intro p hsort hgt hpx hex
    rw [List.pairwise_cons] at hsort
    obtain ⟨hcrest, hsort2⟩ := hsort
    have hpc : p.mbps < c.mbps := hgt c (by simp)
    by_cases hcx : x ≤ c.mbps
    · by_cases htie : x - p.mbps ≤ c.mbps - x
      · refine ⟨p, by simp, by simp [mbpsLookupGo, hcx, htie], ?_, ?_⟩
        · intro f hf
          simp only [List.mem_cons] at hf
          rcases hf with rfl | rfl | hf
          · exact le_refl _
          · unfold dist; split_ifs <;> omega
          · have hcf := hcrest f hf
            unfold dist; split_ifs <;> omega
        · intro f hf _
          simp only [List.mem_cons] at hf
          rcases hf with rfl | rfl | hf
          · exact le_refl _
          · omega
          · exact le_of_lt (lt_trans hpc (hcrest f hf))
      · refine ⟨c, by simp, by simp [mbpsLookupGo, hcx, htie], ?_, ?_⟩
        · intro f hf
          simp only [List.mem_cons] at hf
          rcases hf with rfl | rfl | hf
          · unfold dist; split_ifs <;> omega
          · exact le_refl _
          · have hcf := hcrest f hf
            unfold dist; split_ifs <;> omega
        · intro f hf hdf
          simp only [List.mem_cons] at hf
          rcases hf with rfl | rfl | hf
          · exfalso; unfold dist at hdf; split_ifs at hdf <;> omega
          · exact le_refl _
          · have hcf := hcrest f hf
            exfalso; unfold dist at hdf; split_ifs at hdf <;> omega
    · push_neg at hcx
      have hex2 : ∃ e ∈ rest, x ≤ e.mbps := by
        obtain ⟨e, he, hxe⟩ := hex
        simp only [List.mem_cons] at he
        rcases he with rfl | he
        · omega
        · exact ⟨e, he, hxe⟩
      obtain ⟨e, he, heq, hmin, hleast⟩ := ih c hsort2 hcrest hcx hex2
      have hxle : ¬ x ≤ c.mbps := by omega
      have hstep : mbpsLookupGo x (c :: rest) (some p) = mbpsLookupGo x rest (some c) := by
        simp [mbpsLookupGo, hxle]
      have hdc := hmin c (by simp)
      refine ⟨e, ?_, by rw [hstep]; exact heq, ?_, ?_⟩
      · simp only [List.mem_cons] at he ⊢
        tauto
      · intro f hf
        simp only [List.mem_cons] at hf
        rcases hf with rfl | hf
        · unfold dist at hdc ⊢; split_ifs at hdc ⊢ <;> omega
        · exact hmin f (by simpa using hf)
      · intro f hf hdf
        simp only [List.mem_cons] at hf
        rcases hf with rfl | hf
        · exfalso; unfold dist at hdc hdf; split_ifs at hdc hdf <;> omega
        · exact hleast f (by simpa using hf) hdf

/-- Claim C1: for an ascending speed table (positive thresholds, strictly
increasing) and a target inside the table's range, both `rcsi2_set_phypll`
and `rcsi2_get_osc_freq` select the register value of the entry whose
threshold minimizes the absolute distance to the target, and when two
entries are equally close the one with the lower threshold is chosen. -/
theorem mbps_lookup_nearest (t : List MbpsReg) (x : Nat)
    (hpos : ∀ e ∈ t, 1 ≤ e.mbps)
    (hsort : t.Pairwise fun a b => a.mbps < b.mbps)
    (hlo : ∃ e ∈ t, e.mbps ≤ x) (hhi : ∃ e ∈ t, x ≤ e.mbps) :
    ∃ e ∈ t,
      (rcsi2_set_phypll t x).2 = .ok e.reg ∧
      (rcsi2_get_osc_freq t x).2 = .ok e.reg ∧
      (∀ f ∈ t, dist e.mbps x ≤ dist f.mbps x) ∧
      (∀ f ∈ t, dist f.mbps x = dist e.mbps x → e.mbps ≤ f.mbps) := by
  cases t with
  | nil => simp at hhi
  | cons e0 rest =>
    rw [List.pairwise_cons] at hsort
    obtain ⟨h0rest, hsort2⟩ := hsort
    by_cases hx0 : x ≤ e0.mbps
    · have hres : mbpsLookupGo x (e0 :: rest) none = .ok e0.reg := by
        simp [mbpsLookupGo, hx0]
      refine ⟨e0, by simp, ?_, ?_, ?_, ?_⟩
      · simp [rcsi2_set_phypll, hres]
      · simp [rcsi2_get_osc_freq, hres]
      · intro f hf
        simp only [List.mem_cons] at hf
        rcases hf with rfl | hf
        · exact le_refl _
        · have := h0rest f hf
          unfold dist; split_ifs <;> omega
      · intro f hf _
        simp only [List.mem_cons] at hf
        rcases hf with rfl | hf
        · exact le_refl _
        · exact le_of_lt (h0rest f hf)
    · push_neg at hx0
      have hxle : ¬ x ≤ e0.mbps := by omega
      have hstep : mbpsLookupGo x (e0 :: rest) none = mbpsLookupGo x rest (some e0) := by
        simp [mbpsLookupGo, hxle]
      have hex2 : ∃ e ∈ rest, x ≤ e.mbps := by
        obtain ⟨e, he, hxe⟩ := hhi
        simp only [List.mem_cons] at he
        rcases he with rfl | he
        · omega
        · exact ⟨e, he, hxe⟩
      obtain ⟨e, he, heq, hmin, hleast⟩ := mbpsLookupGo_min x rest e0 hsort2 h0rest hx0 hex2
      exact ⟨e, he, by simp [rcsi2_set_phypll, hstep, heq],
        by simp [rcsi2_get_osc_freq, hstep, heq], hmin, hleast⟩

theorem mbps_lookup_nearest_witness :
    (∀ e ∈ exampleTable, 1 ≤ e.mbps) ∧
    (exampleTable.Pairwise fun a b => a.mbps < b.mbps) ∧
    (∃ e ∈ exampleTable, e.mbps ≤ 95) ∧ (∃ e ∈ exampleTable, 95 ≤ e.mbps) ∧
    (∃ e ∈ exampleTable,
      (rcsi2_set_phypll exampleTable 95).2 = .ok e.reg ∧
      (rcsi2_get_osc_freq exampleTable 95).2 = .ok e.reg ∧
      (∀ f ∈ exampleTable, dist e.mbps 95 ≤ dist f.mbps 95) ∧
      (∀ f ∈ exampleTable, dist f.mbps 95 = dist e.mbps 95 → e.mbps ≤ f.mbps)) ∧
    (rcsi2_set_phypll exampleTable 95).2 = .ok 0x10 :=
  ⟨by decide, by decide, by decide, by decide,
    mbps_lookup_nearest exampleTable 95 (by decide) (by decide) (by decide) (by decide),
    by decide⟩

end RcarCsi2

namespace RcarCsi2

theorem mbpsLookupGo_above (x : Nat) (l : List MbpsReg) :
    ∀ prev, (∀ e ∈ l, e.mbps < x) → mbpsLookupGo x l prev = .error () := by
  induction l with
  | nil => intro prev _; rfl
  | cons e rest ih =>
    intro prev hlt
    have hxe : ¬ x ≤ e.mbps := by
      have := hlt e (by simp)
      omega
    simp only [mbpsLookupGo, if_neg hxe]
    exact ih (some e) fun f hf => hlt f (by simp [hf])

theorem phtwMbpsGo_above (x : Nat) (hx : x ≤ 2 ^ 31) (l : List MbpsReg) :
    ∀ p, (∀ e ∈ l, e.mbps < x) → p.mbps < x →
      phtwMbpsGo x l (some p) = l.getLastD p := by
  induction l with
  | nil =>
    intro p _ hpx
    have hcond : u32sub x p.mbps ≤ u32sub 0 x := by
      simp only [u32sub]
      omega
    simp [phtwMbpsGo, hcond]
  | cons e rest ih =>
    intro p hlt hpx
    have hxe : ¬ x ≤ e.mbps := by
      have := hlt e (by simp)
      omega
    simp only [phtwMbpsGo, if_neg hxe, List.getLastD_cons]
    exact ih e (fun f hf => hlt f (by simp [hf])) (by have := hlt e (by simp); omega)

theorem getLastD_mem (l : List MbpsReg) : ∀ p : MbpsReg, l.getLastD p ∈ p :: l := by
  induction l with
  | nil => intro p; simp
  | cons e rest ih =>
    intro p
    rw [List.getLastD_cons]
    have := ih e
    simp only [List.mem_cons] at this ⊢
    tauto

/-- Claim C2 counterexample: for the example ascending table and the target
200 Mbps, which is strictly above the last threshold (110), the
`rcsi2_phtw_write_mbps` lookup does NOT fail with `-ERANGE`: its unsigned
tie comparison against the zero sentinel always favors the previous entry,
so it silently selects the last entry's register value 0x30 and proceeds to
write it. -/
theorem phtw_above_range_counterexample :
    (∀ e ∈ exampleTable, e.mbps < 200) ∧
    rcsi2_phtw_write_mbps exampleTable 200 = .ok 0x30 ∧
    rcsi2_phtw_write_mbps exampleTable 200 ≠ .error () := by
  refine ⟨by decide, by decide, by decide⟩

/-- Claim C2 (amended): `rcsi2_set_phypll` and `rcsi2_get_osc_freq` behave as
claimed — below the first threshold they warn and use the first entry's
register value, above the last threshold they fail with `-ERANGE` — while
`rcsi2_phtw_write_mbps` emits no warning and, above the last threshold,
silently uses the LAST entry's register value instead of failing. -/
theorem speed_lookup_range_behavior (t : List MbpsReg) (x : Nat)
    (hpos : ∀ e ∈ t, 1 ≤ e.mbps) (hne : t ≠ []) (hx : x ≤ 2 ^ 31) :
    (∀ e0 rest, t = e0 :: rest → x < e0.mbps →
      rcsi2_set_phypll t x = (true, .ok e0.reg) ∧
      rcsi2_get_osc_freq t x = (true, .ok e0.reg)) ∧
    ((∀ e ∈ t, e.mbps < x) →
      (rcsi2_set_phypll t x).2 = .error () ∧
      (rcsi2_get_osc_freq t x).2 = .error () ∧
      rcsi2_phtw_write_mbps t x = .ok ((t.getLastD ⟨0, 0⟩).reg)) := by
  constructor
  · rintro e0 rest rfl hlt
    have hx0 : x ≤ e0.mbps := by omega
    have hres : mbpsLookupGo x (e0 :: rest) none = .ok e0.reg := by
      simp [mbpsLookupGo, hx0]
    have hwarn : mbpsLowWarn (e0 :: rest) x = true := by
      simp [mbpsLowWarn, hlt]
    exact ⟨by simp [rcsi2_set_phypll, hres, hwarn],
           by simp [rcsi2_get_osc_freq, hres, hwarn]⟩
  · intro habove
    have herr := mbpsLookupGo_above x t none habove
    refine ⟨by simp [rcsi2_set_phypll, herr], by simp [rcsi2_get_osc_freq, herr], ?_⟩
    cases t with
    | nil => exact absurd rfl hne
    | cons e0 rest =>
      have h0x : e0.mbps < x := habove e0 (by simp)
      have hxe : ¬ x ≤ e0.mbps := by omega
      have hlast : phtwMbpsGo x (e0 :: rest) none = rest.getLastD e0 := by
        simp only [phtwMbpsGo, if_neg hxe]
        exact phtwMbpsGo_above x hx rest e0 (fun f hf => habove f (by simp [hf])) h0x
      have hmem := getLastD_mem rest e0
      have hposl : 1 ≤ (rest.getLastD e0).mbps := hpos _ hmem
      have hne0 : ¬ (rest.getLastD e0).mbps = 0 := by omega
      have hcons : (e0 :: rest).getLastD ⟨0, 0⟩ = rest.getLastD e0 :=
        List.getLastD_cons _ _ _
      show (if (phtwMbpsGo x (e0 :: rest) none).mbps = 0 then (Except.error () : Except Unit Nat)
        else .ok (phtwMbpsGo x (e0 :: rest) none).reg) = .ok (((e0 :: rest).getLastD ⟨0, 0⟩).reg)
      rw [hlast, if_neg hne0, hcons]

theorem speed_lookup_range_behavior_witness :
    (∀ e ∈ exampleTable, 1 ≤ e.mbps) ∧ exampleTable ≠ [] ∧ (200 : Nat) ≤ 2 ^ 31 ∧
    ((∀ e0 rest, exampleTable = e0 :: rest → 200 < e0.mbps →
      rcsi2_set_phypll exampleTable 200 = (true, .ok e0.reg) ∧
      rcsi2_get_osc_freq exampleTable 200 = (true, .ok e0.reg)) ∧
    ((∀ e ∈ exampleTable, e.mbps < 200) →
      (rcsi2_set_phypll exampleTable 200).2 = .error () ∧
      (rcsi2_get_osc_freq exampleTable 200).2 = .error () ∧
      rcsi2_phtw_write_mbps exampleTable 200 = .ok ((exampleTable.getLastD ⟨0, 0⟩).reg))) :=
  ⟨by decide, by decide, by decide,
    speed_lookup_range_behavior exampleTable 200 (by decide) (by decide) (by decide)⟩

/-- Claim C3: the computed link speed is `floor(bpp * pixelRate / (lanes *
1000000))` as claimed whenever the u64 quotient fits the `int` return type
(the model reproduces the u64-to-int narrowing of the C return value, as the
10^16-pixel-rate conjunct exhibits), but for C-PHY connections the v4h
bring-up then divides by 2, not by the claimed symbol-efficiency factor of
about 2.8: the `do_div` macro truncates the C literal `2.8` to the
`uint32_t` 2.  At pixel rate 1 MHz, 14 bits per pixel and 1 lane the
computed rate is 14 Mbps; the code calibrates at 14 / 2 = 7 Mbps where
division by 2.8 would give 5. -/
theorem cphy_divisor_truncated (p bpp lanes : Nat) (hfit : p * bpp < 2 ^ 64)
    (hq : p * bpp / (lanes * 1000000) < 2 ^ 31) :
    rcsi2_calc_mbps false true (some p) bpp lanes = .ok (bpp * p / (lanes * 1000000)) ∧
    rcsi2_calc_mbps false true (some 10000000000000000) 10 1 = .ok 1215752192 ∧
    v4h_cphy_divisor = 2 ∧
    rcsi2_calc_mbps false true (some 1000000) 14 1 = .ok 14 ∧
    14 / v4h_cphy_divisor = 7 ∧
    14 * 10 / 28 = 5 ∧ (7 : Nat) ≠ 5 := by
  refine ⟨?_, by decide, rfl, by decide, by decide, by decide, by decide⟩
  have h1 : p * bpp % 2 ^ 64 = p * bpp := Nat.mod_eq_of_lt hfit
  have h2 : p * bpp / (lanes * 1000000) % 2 ^ 32 = p * bpp / (lanes * 1000000) :=
    Nat.mod_eq_of_lt (by omega)
  show (if u64_to_int (p * bpp % 2 ^ 64 / (lanes * 1000000)) < 0 then
      Except.error (u64_to_int (p * bpp % 2 ^ 64 / (lanes * 1000000)))
    else Except.ok (u64_to_int (p * bpp % 2 ^ 64 / (lanes * 1000000))).toNat) =
    Except.ok (bpp * p / (lanes * 1000000))
  rw [h1]
  have hu : u64_to_int (p * bpp / (lanes * 1000000)) =
      ((p * bpp / (lanes * 1000000) : Nat) : Int) := by
    unfold u64_to_int
    rw [h2, if_pos hq]
  rw [hu, if_neg (not_lt.mpr (Int.natCast_nonneg _)), Int.toNat_natCast,
    Nat.mul_comm p bpp]

theorem cphy_divisor_truncated_witness :
    1000000 * 14 < 2 ^ 64 ∧ 1000000 * 14 / (1 * 1000000) < 2 ^ 31 ∧
    (rcsi2_calc_mbps false true (some 1000000) 14 1 = .ok (14 * 1000000 / (1 * 1000000)) ∧
    rcsi2_calc_mbps false true (some 10000000000000000) 10 1 = .ok 1215752192 ∧
    v4h_cphy_divisor = 2 ∧
    rcsi2_calc_mbps false true (some 1000000) 14 1 = .ok 14 ∧
    14 / v4h_cphy_divisor = 7 ∧
    14 * 10 / 28 = 5 ∧ (7 : Nat) ≠ 5) :=
  ⟨by decide, by decide, cphy_divisor_truncated 1000000 14 1 (by decide) (by decide)⟩

end RcarCsi2

namespace RcarCsi2

theorem runStarts_stable (start : Except Int Unit × List Act) :
    ∀ (n : Nat) (c : Int), 1 ≤ c → runStarts start n c = (c + n, 0) := by
  intro n
  induction n with
  | zero => intro c _; simp [runStarts]
  | succ m ih =>
    intro c hc
    have h0 : ¬ c = 0 := by omega
    have hstep : rcsi2_s_stream false true start true c = (.ok (), c + 1, []) := by
      simp [rcsi2_s_stream, h0]
    simp only [runStarts, hstep]
    rw [ih (c + 1) (by omega)]
    simp [Prod.ext_iff]
    omega

/-- Claim C4: starting from count 0, `N ≥ 1` consecutive successful `start`
requests execute the hardware bring-up exactly once (one `exitStandby` in
the accumulated trace, emitted by the first call when the count moves from
0 to 1) and leave the stream reference count at `N`; every later call only
increments the count, emitting no hardware action. -/
theorem start_refcount_bringup_once (N : Nat) (h1 : 1 ≤ N) (recvTrace : List Act)
    (hcl : Act.exitStandby ∉ recvTrace) (v : Bool) :
    runStarts (rcsi2_start (.ok ()) recvTrace (.ok ()) v) N 0 = ((N : Int), 1) := by
  obtain ⟨m, rfl⟩ : ∃ m, N = m + 1 := ⟨N - 1, by omega⟩
  have hcount : ((rcsi2_start (.ok ()) recvTrace (.ok ()) v).2).count Act.exitStandby = 1 := by
    have hz : recvTrace.count Act.exitStandby = 0 := List.count_eq_zero.mpr hcl
    cases v <;>
      simp [rcsi2_start, List.count_cons, List.count_append, hz]
  have hfirst : rcsi2_s_stream false true (rcsi2_start (.ok ()) recvTrace (.ok ()) v) true 0 =
      (.ok (), 1, (rcsi2_start (.ok ()) recvTrace (.ok ()) v).2) := by
    cases v <;> simp [rcsi2_s_stream, rcsi2_start]
  simp only [runStarts, hfirst]
  rw [runStarts_stable _ m 1 (by omega)]
  rw [hcount]
  simp [Prod.ext_iff]
  omega

theorem start_refcount_bringup_once_witness :
    1 ≤ 3 ∧ Act.exitStandby ∉ ([] : List Act) ∧
    runStarts (rcsi2_start (.ok ()) [] (.ok ()) false) 3 0 = ((3 : Int), 1) :=
  ⟨by decide, by decide, start_refcount_bringup_once 3 (by decide) [] (by decide) false⟩

/-- Claim C5 counterexample: a `stop` request issued while the stream count
is already 0 is NOT detected: no defensive check exists, nothing is logged,
and the unconditional `stream_count += enable ? 1 : -1` drives the count to
-1 — the count does not stay 0 and the invariant "never negative" fails
(only the teardown is skipped, because the teardown branch requires count
exactly 1). -/
theorem stop_at_zero_counterexample :
    rcsi2_s_stream false true (.ok (), []) false 0 = (.ok (), -1, []) ∧
    ¬ (0 : Int) ≤ -1 := by
  refine ⟨by decide, by decide⟩

/-- Claim C5 (amended): a `stop` with the count at 0 (or below) runs no
teardown — the emitted trace is empty, since the teardown branch requires
count exactly 1 — but there is no defensive check: the call reports success
and decrements the count below zero. -/
theorem stop_at_zero_behavior (start : Except Int Unit × List Act) (c : Int) (hc : c ≤ 0) :
    rcsi2_s_stream false true start false c = (.ok (), c - 1, []) ∧ c - 1 < 0 := by
  have h1 : ¬ c = 1 := by omega
  constructor
  · simp [rcsi2_s_stream, h1]
    omega
  · omega

theorem stop_at_zero_behavior_witness :
    (0 : Int) ≤ 0 ∧
    (rcsi2_s_stream false true (.ok (), []) false 0 = (.ok (), 0 - 1, []) ∧ (0 : Int) - 1 < 0) :=
  ⟨by decide, stop_at_zero_behavior (.ok (), []) 0 (by decide)⟩

/-- Claim C6 counterexample: `rcsi2_stop` performs the PHY teardown (standby
entry: PHYCNT cleared, test clear, reset assertion, power release) FIRST and
only then issues the stop request to the source — the opposite of the
claimed order. -/
theorem stop_order_counterexample :
    rcsi2_stop = [.enterStandby, .sourceSetStreaming false] ∧
    rcsi2_stop ≠ [.sourceSetStreaming false, .enterStandby] := by
  refine ⟨by decide, by decide⟩

/-- Claim C6 (amended): whenever `stop` transitions the reference count from
1 to 0, the resulting effect sequence performs the PHY teardown (standby
entry) first and only afterwards issues the stop request to the
downstream/upstream source. -/
theorem stop_teardown_then_source (start : Except Int Unit × List Act) :
    rcsi2_s_stream false true start false 1 =
      (.ok (), 0, [.enterStandby, .sourceSetStreaming false]) := by
  simp [rcsi2_s_stream, rcsi2_stop]

end RcarCsi2

namespace RcarCsi2

theorem phyReadyWithin_none (reads : Nat → Nat)
    (h : ∀ i, reads i &&& ST_PHY_READY = 0) :
    ∀ (fuel i : Nat), phyReadyWithin reads i fuel = false := by
  intro fuel
  induction fuel with
  | zero => intro i; rfl
  | succ m ih =>
    intro i
    simp [phyReadyWithin, h i, ih]

/-- Claim C7 counterexample: with hardware whose `ST_PHYST` reads never show
the calibration-ready bit, `rcsi2_c_phy_setting` does return `-ETIMEDOUT` —
but `rcsi2_start_receiver_v4h` merely logs the failure and returns success,
so the bring-up is NOT aborted and `rcsi2_start` completes reporting
success, contrary to the claim that the Timeout reaches the `start()`
caller.  (Pixel rate 80 MHz, 24 bpp, 3 lanes: 640 Mbps, 320 Msps after the
C-PHY division.) -/
theorem cphy_timeout_swallowed_counterexample :
    rcsi2_c_phy_setting cphy_setting_table_r8a779g0 320 (fun _ => 0) = .error (-110) ∧
    rcsi2_start_receiver_v4h true true (some 80000000) 24 3 cphy_setting_table_r8a779g0
      (fun _ => 0) (.ok ()) = (.ok (), [.logErr]) ∧
    (rcsi2_start (.ok ()) [.logErr] (.ok ()) true).1 = .ok () := by
  refine ⟨by decide, by decide, by decide⟩

/-- Claim C7 (amended): when the bounded calibration-ready poll (10 reads)
never observes the ready bit, `rcsi2_c_phy_setting` returns `-ETIMEDOUT` —
but `rcsi2_start_receiver_v4h` logs and discards that result and returns
success, so no abort happens and `rcsi2_start` reports success to the
caller; the Timeout is never propagated. -/
theorem cphy_timeout_swallowed (table : List CphySetting) (mbps : Nat)
    (reads : Nat → Nat) (remote : Bool) (ctrl : Option Nat) (bpp lanes : Nat)
    (dres : Except Int Unit)
    (hnr : ∀ i, reads i &&& ST_PHY_READY = 0)
    (hrate : rcsi2_calc_mbps false remote ctrl bpp lanes = .ok mbps)
    (hfound : (findMsps (mbps / v4h_cphy_divisor) table).isSome = true) :
    rcsi2_c_phy_setting table (mbps / v4h_cphy_divisor) reads = .error (-110) ∧
    rcsi2_start_receiver_v4h true remote ctrl bpp lanes table reads dres =
      (.ok (), [.logErr]) ∧
    (rcsi2_start (rcsi2_start_receiver_v4h true remote ctrl bpp lanes table reads dres).1
      (rcsi2_start_receiver_v4h true remote ctrl bpp lanes table reads dres).2
      (.ok ()) true).1 = .ok () := by
  obtain ⟨e, he⟩ := Option.isSome_iff_exists.mp hfound
  have hpoll := phyReadyWithin_none reads hnr 10 0
  have hphy : rcsi2_c_phy_setting table (mbps / v4h_cphy_divisor) reads = .error (-110) := by
    simp [rcsi2_c_phy_setting, he, hpoll]
  have hrecv : rcsi2_start_receiver_v4h true remote ctrl bpp lanes table reads dres =
      (.ok (), [.logErr]) := by
    simp [rcsi2_start_receiver_v4h, hrate, hphy]
  refine ⟨hphy, hrecv, ?_⟩
  rw [hrecv]
  rfl

theorem cphy_timeout_swallowed_witness :
    (∀ i : Nat, (fun _ : Nat => 0) i &&& ST_PHY_READY = 0) ∧
    rcsi2_calc_mbps false true (some 80000000) 24 3 = .ok 640 ∧
    (findMsps (640 / v4h_cphy_divisor) cphy_setting_table_r8a779g0).isSome = true ∧
    (rcsi2_c_phy_setting cphy_setting_table_r8a779g0 (640 / v4h_cphy_divisor)
        (fun _ => 0) = .error (-110) ∧
      rcsi2_start_receiver_v4h true true (some 80000000) 24 3 cphy_setting_table_r8a779g0
        (fun _ => 0) (.ok ()) = (.ok (), [.logErr]) ∧
      (rcsi2_start
        (rcsi2_start_receiver_v4h true true (some 80000000) 24 3 cphy_setting_table_r8a779g0
          (fun _ => 0) (.ok ())).1
        (rcsi2_start_receiver_v4h true true (some 80000000) 24 3 cphy_setting_table_r8a779g0
          (fun _ => 0) (.ok ())).2 (.ok ()) true).1 = .ok ()) :=
  ⟨by intro i; simp, by decide, by decide,
    cphy_timeout_swallowed cphy_setting_table_r8a779g0 640 (fun _ => 0) true
      (some 80000000) 24 3 (.ok ()) (by intro i; simp) (by decide) (by decide)⟩

theorem irq_thread_ends_unlock (recvRes : Except Int Unit) (recvTrace : List Act)
    (srcRes : Except Int Unit) (v : Bool) :
    ∃ pre, rcsi2_irq_thread recvRes recvTrace srcRes v = pre ++ [Act.unlock] :=
  ⟨[Act.lock] ++ rcsi2_stop ++ [Act.sleep] ++ (rcsi2_start recvRes recvTrace srcRes v).2 ++
    (match (rcsi2_start recvRes recvTrace srcRes v).1 with
     | .error _ => [Act.logWarn]
     | .ok _ => []), rfl⟩

theorem stateAfter_append (s : RState) (l1 l2 : List Act) :
    stateAfter s (l1 ++ l2) = stateAfter (stateAfter s l1) l2 := by
  simp [stateAfter, List.foldl_append]

theorem stateAfter_untouched (tr : List Act)
    (h : ∀ a ∈ tr, a ≠ Act.enterStandby ∧ a ≠ Act.exitStandby) :
    ∀ s, stateAfter s tr = s := by
  induction tr with
  | nil => intro s; rfl
  | cons a tl ih =>
    intro s
    have ha := h a (by simp)
    have hstep : stepState s a = s := by
      cases a <;> simp_all [stepState]
    simp only [stateAfter, List.foldl_cons, hstep]
    exact ih (fun b hb => h b (by simp [hb])) s

/-- Claim C8: the immediate interrupt stage acknowledges and does nothing
else on a zero status, and wakes the deferred stage exactly when both the
status and the error status are non-zero; the deferred stage then performs,
under the controller lock, exactly one stop request followed by exactly one
bring-up attempt, and when that restart fails it logs one warning, leaves
the receiver in standby, and attempts no further restart. -/
theorem fault_recovery_single_restart (status err : Nat) (hs : status ≠ 0) (he : err ≠ 0)
    (recvRes : Except Int Unit) (recvTrace : List Act) (srcRes : Except Int Unit) (v : Bool)
    (hcl : ∀ a ∈ recvTrace, a ≠ Act.enterStandby ∧ a ≠ Act.exitStandby ∧
      a ≠ Act.sourceSetStreaming false ∧ a ≠ Act.logWarn) :
    rcsi2_irq status err =
      (.wakeThread,
        [.writeReg INTSTATE_REG status, .writeReg INTERRSTATE_REG err, .logInfo]) ∧
    rcsi2_irq 0 err = (.handled, []) ∧
    (rcsi2_irq_thread recvRes recvTrace srcRes v).count (.sourceSetStreaming false) = 1 ∧
    (rcsi2_irq_thread recvRes recvTrace srcRes v).count .exitStandby = 1 ∧
    (rcsi2_irq_thread recvRes recvTrace srcRes v).take 5 =
      [.lock, .enterStandby, .sourceSetStreaming false, .sleep, .exitStandby] ∧
    (rcsi2_irq_thread recvRes recvTrace srcRes v).getLast? = some .unlock ∧
    ((rcsi2_start recvRes recvTrace srcRes v).1 ≠ .ok () →
      stateAfter .active (rcsi2_irq_thread recvRes recvTrace srcRes v) = .standby ∧
      (rcsi2_irq_thread recvRes recvTrace srcRes v).count .logWarn = 1) := by
  have hsrc0 : recvTrace.count (Act.sourceSetStreaming false) = 0 :=
    List.count_eq_zero.mpr fun hmem => (hcl _ hmem).2.2.1 rfl
  have hexit0 : recvTrace.count Act.exitStandby = 0 :=
    List.count_eq_zero.mpr fun hmem => (hcl _ hmem).2.1 rfl
  have hwarn0 : recvTrace.count Act.logWarn = 0 :=
    List.count_eq_zero.mpr fun hmem => (hcl _ hmem).2.2.2 rfl
  have huntouched : ∀ s, stateAfter s recvTrace = s :=
    stateAfter_untouched recvTrace fun a ha => ⟨(hcl a ha).1, (hcl a ha).2.1⟩
  refine ⟨by simp [rcsi2_irq, hs, he], by simp [rcsi2_irq], ?_, ?_, ?_, ?_, ?_⟩
  · cases recvRes <;> cases srcRes <;> cases v <;>
      simp [rcsi2_irq_thread, rcsi2_start, rcsi2_stop, List.count_append,
        List.count_cons, hsrc0]
  · cases recvRes <;> cases srcRes <;> cases v <;>
      simp [rcsi2_irq_thread, rcsi2_start, rcsi2_stop, List.count_append,
        List.count_cons, hexit0]
  · cases recvRes <;> cases srcRes <;> cases v <;>
      simp [rcsi2_irq_thread, rcsi2_start, rcsi2_stop]
  · obtain ⟨pre, hpre⟩ := irq_thread_ends_unlock recvRes recvTrace srcRes v
    rw [hpre, List.getLast?_concat]
  · intro hfail
    cases hrecv : recvRes with
    | error e =>
      constructor
      · simp only [rcsi2_irq_thread, rcsi2_start, rcsi2_stop]
        simp only [List.append_assoc, List.cons_append, List.nil_append,
          stateAfter_append, stateAfter]
        simp only [List.foldl_cons, List.foldl_nil, stepState]
        rw [List.foldl_append]
        rw [show List.foldl stepState RState.active recvTrace = RState.active from
          huntouched RState.active]
        rfl
      · cases srcRes <;> cases v <;>
          simp [rcsi2_irq_thread, rcsi2_start, rcsi2_stop, List.count_append,
            List.count_cons, hwarn0]
    | ok u =>
      cases hsrcr : srcRes with
      | error e2 =>
        constructor
        · simp only [rcsi2_irq_thread, rcsi2_start, rcsi2_stop]
          simp only [List.append_assoc, List.cons_append, List.nil_append,
            stateAfter_append, stateAfter]
          simp only [List.foldl_cons, List.foldl_nil, stepState]
          rw [List.foldl_append]
          rw [show List.foldl stepState RState.active recvTrace = RState.active from
            huntouched RState.active]
          rfl
        · cases v <;>
            simp [rcsi2_irq_thread, rcsi2_start, rcsi2_stop, List.count_append,
              List.count_cons, hwarn0]
      | ok u2 =>
        exfalso
        apply hfail
        simp [rcsi2_start, hrecv, hsrcr]

theorem fault_recovery_single_restart_witness :
    (1 : Nat) ≠ 0 ∧ (2 : Nat) ≠ 0 ∧
    (∀ a ∈ [Act.logErr], a ≠ Act.enterStandby ∧ a ≠ Act.exitStandby ∧
      a ≠ Act.sourceSetStreaming false ∧ a ≠ Act.logWarn) ∧
    (rcsi2_irq 1 2 =
      (.wakeThread, [.writeReg INTSTATE_REG 1, .writeReg INTERRSTATE_REG 2, .logInfo]) ∧
    rcsi2_irq 0 2 = (.handled, []) ∧
    (rcsi2_irq_thread (.error (-110)) [Act.logErr] (.ok ()) true).count
      (.sourceSetStreaming false) = 1 ∧
    (rcsi2_irq_thread (.error (-110)) [Act.logErr] (.ok ()) true).count .exitStandby = 1 ∧
    (rcsi2_irq_thread (.error (-110)) [Act.logErr] (.ok ()) true).take 5 =
      [.lock, .enterStandby, .sourceSetStreaming false, .sleep, .exitStandby] ∧
    (rcsi2_irq_thread (.error (-110)) [Act.logErr] (.ok ()) true).getLast? = some .unlock ∧
    ((rcsi2_start (.error (-110)) [Act.logErr] (.ok ()) true).1 ≠ .ok () →
      stateAfter .active (rcsi2_irq_thread (.error (-110)) [Act.logErr] (.ok ()) true) =
        .standby ∧
      (rcsi2_irq_thread (.error (-110)) [Act.logErr] (.ok ()) true).count .logWarn = 1)) :=
  ⟨by decide, by decide, by decide,
    fault_recovery_single_restart 1 2 (by decide) (by decide) (.error (-110)) [Act.logErr]
      (.ok ()) true (by decide)⟩

end RcarCsi2

namespace RcarCsi2

/-- Claim C9 counterexample: a D-PHY endpoint with two data lanes both
mapped to physical lane 1 is ACCEPTED by `rcsi2_parse_v4l2` — the resulting
lane-swap array [1, 1, 2, 3] contains a duplicate physical index and is not
a permutation of the physical lane set, yet no `-EINVAL` is returned: the
parser only range-checks each entry and never checks for duplicates. -/
theorem lane_swap_duplicate_accepted :
    rcsi2_parse_v4l2 0 0 .dphy 2 [1, 1] = .ok ⟨2, false, [1, 1, 2, 3]⟩ ∧
    ¬ List.Nodup [1, 1, 2, 3] := by
  refine ⟨by decide, by decide⟩

/-- Claim C9 (amended): for a D-PHY endpoint on port 0 endpoint 0 with a
valid lane count, `rcsi2_parse_v4l2` accepts the configuration exactly when
every computed lane-swap entry lies in the physical range 1..4, rejecting
any out-of-range physical index with `-EINVAL` before any hardware access;
duplicate physical indices are not detected. -/
theorem lane_swap_range_check (num : Nat) (dl : List Nat)
    (hnum : num = 1 ∨ num = 2 ∨ num = 4) :
    (rcsi2_parse_v4l2 0 0 .dphy num dl = .ok ⟨num, false, rcsi2_lane_swap num dl⟩ ↔
      ∀ v ∈ rcsi2_lane_swap num dl, 1 ≤ v ∧ v ≤ 4) ∧
    ((∃ v ∈ rcsi2_lane_swap num dl, v < 1 ∨ 4 < v) →
      rcsi2_parse_v4l2 0 0 .dphy num dl = .error (-22)) := by
  have hvalid : ¬ (num ≠ 1 ∧ num ≠ 2 ∧ num ≠ 4) := by
    rcases hnum with rfl | rfl | rfl <;> simp
  have hparse : rcsi2_parse_v4l2 0 0 .dphy num dl = rcsi2_check_lanes num false dl := by
    simp [rcsi2_parse_v4l2, hvalid]
  rw [hparse]
  constructor
  · constructor
    · intro hok
      by_contra hbad
      simp only [rcsi2_check_lanes, if_neg hbad] at hok
      exact Except.noConfusion hok
    · intro hrange
      simp only [rcsi2_check_lanes, if_pos hrange]
  · intro hbad
    have hnr : ¬ ∀ v ∈ rcsi2_lane_swap num dl, 1 ≤ v ∧ v ≤ 4 := by
      obtain ⟨v, hv, hout⟩ := hbad
      intro hall
      have := hall v hv
      omega
    simp [rcsi2_check_lanes, hnr]

theorem lane_swap_range_check_witness :
    ((2 : Nat) = 1 ∨ (2 : Nat) = 2 ∨ (2 : Nat) = 4) ∧
    ((rcsi2_parse_v4l2 0 0 .dphy 2 [1, 5] = .ok ⟨2, false, rcsi2_lane_swap 2 [1, 5]⟩ ↔
      ∀ v ∈ rcsi2_lane_swap 2 [1, 5], 1 ≤ v ∧ v ≤ 4) ∧
    ((∃ v ∈ rcsi2_lane_swap 2 [1, 5], v < 1 ∨ 4 < v) →
      rcsi2_parse_v4l2 0 0 .dphy 2 [1, 5] = .error (-22))) :=
  ⟨by decide, lane_swap_range_check 2 [1, 5] (by decide)⟩

/-- Claim C10: `rcsi2_phtw_write_array` stops at the first entry whose data
and code fields are both zero, writing neither it nor anything after it —
running a program `l1 ++ (0,0) :: l2` (with no all-zero pair in `l1`) is
indistinguishable, in result and in number of writes performed, from running
`l1` alone.  In particular the V4M D-PHY programs `step5` and `step33`,
whose FIRST entry is the all-zero pair, perform zero writes and succeed,
whatever the indirect-register channel would do. -/
theorem phtw_array_stops_at_zero (w : Nat → Except Int Unit) (l1 l2 : List PhtwValue)
    (n : Nat) (h : ∀ v ∈ l1, v.data ≠ 0 ∨ v.code ≠ 0) :
    rcsi2_phtw_write_array w (l1 ++ ⟨0, 0⟩ :: l2) n = rcsi2_phtw_write_array w l1 n ∧
    rcsi2_phtw_write_array w step5 0 = (.ok (), 0) ∧
    rcsi2_phtw_write_array w step33 0 = (.ok (), 0) := by
  refine ⟨?_, by simp [rcsi2_phtw_write_array, step5], by simp [rcsi2_phtw_write_array, step33]⟩
  induction l1 generalizing n with
  | nil => simp [rcsi2_phtw_write_array]
  | cons v rest ih =>
    have hv := h v (by simp)
    have hvz : ¬ (v.data = 0 ∧ v.code = 0) := by tauto
    simp only [List.cons_append, rcsi2_phtw_write_array, if_neg hvz]
    cases w n with
    | error e => rfl
    | ok u => exact ih (n + 1) fun f hf => h f (List.mem_cons_of_mem _ hf)

theorem phtw_array_stops_at_zero_witness :
    (∀ v ∈ [(⟨1, 0⟩ : PhtwValue)], v.data ≠ 0 ∨ v.code ≠ 0) ∧
    (rcsi2_phtw_write_array (fun _ => .ok ()) ([⟨1, 0⟩] ++ ⟨0, 0⟩ :: [⟨7, 7⟩]) 0 =
        rcsi2_phtw_write_array (fun _ => .ok ()) [⟨1, 0⟩] 0 ∧
      rcsi2_phtw_write_array (fun _ => .ok ()) step5 0 = (.ok (), 0) ∧
      rcsi2_phtw_write_array (fun _ => .ok ()) step33 0 = (.ok (), 0)) :=
  ⟨by decide,
    phtw_array_stops_at_zero (fun _ => .ok ()) [⟨1, 0⟩] [⟨7, 7⟩] 0 (by decide)⟩

end RcarCsi2
